import Mathlib

/-!
Shallow embedding of the Move unit-test runner of this repository:
`language/tools/move-unit-test/src/test_runner.rs` (outcome classification,
per-module test execution, plan filtering, runner setup/run) and the shared
`Counter` of `language/move-lang/src/shared/mod.rs`.

Conventions of the embedding:
* Strings (module names, test-function names) are `List Char`, so that the
  substring test of Rust's `str::contains` is an executable function.
* The virtual machine is an external collaborator; a single test execution is
  represented by its observable result (`VMResult`), and executing a module
  plan is parameterised by an oracle `vm : List Char → VMResult` giving the
  VM result of each test function.
* The `u64` abort codes are `Nat` (no arithmetic is performed on them, so no
  modular wrap can arise).
-/

/-- Major VM status codes (`move_core_types::vm_status::StatusCode`, an
external enum). The classifier in `test_runner.rs` only distinguishes
`OUT_OF_GAS` and `ABORTED`; every other major status is opaque, kept here as
`other n`. -/
inductive StatusCode where
  | OUT_OF_GAS
  | ABORTED
  | other (code : Nat)
deriving DecidableEq

/-- A structured VM error as observed by `exec_module_tests`: a major status
code (`err.major_status()`) and an optional abort sub-status
(`err.sub_status()`, the abort code when present). -/
structure VMError where
  major_status : StatusCode
  sub_status : Option Nat
deriving DecidableEq

/-- The result of `session.execute_function` for one test: success (the
returned value is ignored by the runner) or a structured VM error. -/
inductive VMResult where
  | ok
  | err (e : VMError)
deriving DecidableEq

/-- `move_lang::unit_test::ExpectedFailure` as pattern-matched by
`test_runner.rs`: expected to fail with any abort code, or expected to fail
with a specific abort code. "Not expected to fail" is `Option.none` at the
use site (`test_info.expected_failure : Option ExpectedFailure`). -/
inductive ExpectedFailure where
  | Expected
  | ExpectedWithCode (code : Nat)
deriving DecidableEq

/-- `FailureReason` (from the test reporter) restricted to the constructors
invoked by `test_runner.rs`: `timeout()`, `aborted(code)`,
`wrong_abort(expected, actual)`, `no_abort()`, `unknown()`. -/
inductive FailureReason where
  | timeout
  | aborted (code : Nat)
  | wrong_abort (expected : Nat) (actual : Nat)
  | no_abort
  | unknown
deriving DecidableEq

/-- `TestFailure::new(reason, function_name, vm_error)`: one failed or
timed-out test, with the raw VM error context when one occurred. -/
structure TestFailure where
  reason : FailureReason
  function_name : List Char
  vm_error : Option VMError
deriving DecidableEq

/-- Per-test metadata of a `ModuleTestPlan` entry. The literal argument
values are opaque to classification (they are only forwarded to the VM), so
only the declared expectation is kept. -/
structure TestInfo where
  expected_failure : Option ExpectedFailure
deriving DecidableEq

/-- `ModuleTestPlan`: one module's name and its ordered map from
test-function name to `TestInfo` (the `BTreeMap` is embedded as an
association list in key order). -/
structure ModuleTestPlan where
  module_name : List Char
  tests : List (List Char × TestInfo)
deriving DecidableEq

/-- An opaque compiled module, identified for the storage snapshot. -/
structure CompiledModule where
  id : Nat
deriving DecidableEq

/-- `TestPlan`: the modules to publish into the storage snapshot
(`module_info`) and the per-module test plans (`module_tests`). -/
structure TestPlan where
  module_info : List CompiledModule
  module_tests : List ModuleTestPlan
deriving DecidableEq

/-- The per-test verdict taken by one arm of the match in
`exec_module_tests`: the test is counted as a success, or a failure with a
`FailureReason` and the optional raw VM error is recorded. -/
inductive Verdict where
  | pass
  | fail (reason : FailureReason) (vm_error : Option VMError)
deriving DecidableEq

/-- The outcome classification of `exec_module_tests`
(test_runner.rs lines 157-235), with the match arms in source order:
1. any expectation, major status `OUT_OF_GAS` → timeout failure;
2. no expected failure, abort code present → `aborted` failure;
3. `ExpectedWithCode(code)`, carried code equal and major status `ABORTED`
   → pass;
4. `ExpectedWithCode(code)`, carried code present otherwise →
   `wrong_abort` failure;
5. `Expected`, any carried code → pass;
6. no carried code → `unknown` failure;
7. `Ok` with an expected failure declared → `no_abort` failure (no VM
   error context); `Ok` without one → pass.
The console printing side effects are dropped. -/
def classify (expected_failure : Option ExpectedFailure) (result : VMResult) :
    Verdict :=
  match result with
  | .err err =>
    if err.major_status = StatusCode.OUT_OF_GAS then
      .fail .timeout (some err)
    else
      match expected_failure, err.sub_status with
      | none, some code => .fail (.aborted code) (some err)
      | some (.ExpectedWithCode code), some other_code =>
        if err.major_status = StatusCode.ABORTED ∧ code = other_code then
          .pass
        else
          .fail (.wrong_abort code other_code) (some err)
      | some .Expected, some _ => .pass
      | _, none => .fail .unknown (some err)
  | .ok =>
    if expected_failure.isSome then .fail .no_abort none else .pass

/-- Modelled from the spec: `TestStatistics` lives in the test reporter,
which is not part of the sources here. Per the spec it is "a per-run
accumulator — counts of passed tests, and a mapping from module identity to
the list of `TestFailure` records for that module", combinable by "union of
failure lists, sum of pass counts"; the failure records are therefore kept
as a multiset of (module name, failure) pairs. -/
structure TestStatistics where
  passed : Nat
  failures : Multiset (List Char × TestFailure)
deriving DecidableEq

/-- Modelled from the spec: the freshly constructed accumulator
(`TestStatistics::new`) has zero passes and no failures. -/
def TestStatistics.new : TestStatistics := ⟨0, 0⟩

/-- Modelled from the spec: `stats.test_success()` counts one more pass. -/
def TestStatistics.test_success (s : TestStatistics) : TestStatistics :=
  { s with passed := s.passed + 1 }

/-- Modelled from the spec: `stats.test_failure(failure, test_plan)` records
one failure under the plan's module. -/
def TestStatistics.test_failure (s : TestStatistics) (module_name : List Char)
    (f : TestFailure) : TestStatistics :=
  { s with failures := (module_name, f) ::ₘ s.failures }

/-- Modelled from the spec: `combine(a, b)` "merges two statistics
accumulators by concatenating their per-module failure lists and summing
pass counts", the failure lists being unordered unions. -/
def TestStatistics.combine (s other : TestStatistics) : TestStatistics :=
  ⟨s.passed + other.passed, s.failures + other.failures⟩

/-- One iteration of the `for (function_name, test_info)` loop of
`exec_module_tests`: classify the VM result of the test and fold the verdict
into the statistics. -/
def execStep (vm : List Char → VMResult) (module_name : List Char)
    (stats : TestStatistics) (t : List Char × TestInfo) : TestStatistics :=
  match classify t.2.expected_failure (vm t.1) with
  | .pass => stats.test_success
  | .fail reason vm_error =>
      stats.test_failure module_name ⟨reason, t.1, vm_error⟩

/-- `SharedTestingConfig::exec_module_tests`: run every test of the module
plan in order against the VM oracle, starting from fresh statistics. -/
def exec_module_tests (vm : List Char → VMResult)
    (test_plan : ModuleTestPlan) : TestStatistics :=
  test_plan.tests.foldl (execStep vm test_plan.module_name) TestStatistics.new

/-- Rust `str::contains`: `containsSub needle hay` is true iff `needle`
occurs as a contiguous substring of `hay`. -/
def containsSub (needle : List Char) : List Char → Bool
  | [] => needle.isEmpty
  | c :: rest => needle.isPrefixOf (c :: rest) || containsSub needle rest

/-- One module entry of `TestRunner::filter`: a module whose own name
contains the slice is kept whole (the `continue` branch); otherwise its test
map is narrowed to the test names containing the slice. -/
def ModuleTestPlan.filterModule (slice : List Char) (m : ModuleTestPlan) :
    ModuleTestPlan :=
  if containsSub slice m.module_name then m
  else { m with tests := m.tests.filter (fun t => containsSub slice t.1) }

/-- `TestRunner::filter(test_name_slice)`: the in-place rewrite of the plan,
applied to every module entry (no module entry is ever removed). -/
def filterPlan (slice : List Char) (p : TestPlan) : TestPlan :=
  { p with module_tests := p.module_tests.map (ModuleTestPlan.filterModule slice) }

/-- The `for module in modules` loop of `setup_test_storage`: serialize
each module (serialization, `CompiledModule::serialize`, is external — the
oracle `ser`) and publish the bytes under the module's identity; the first
serialization failure aborts the whole construction (the `?` operator). -/
def setupLoop (ser : CompiledModule → Except (List Char) (List Nat))
    (storage : List (Nat × List Nat)) :
    List CompiledModule → Except (List Char) (List (Nat × List Nat))
  | [] => .ok storage
  | m :: rest =>
    match ser m with
    | .error e => .error e
    | .ok module_bytes => setupLoop ser (storage ++ [(m.id, module_bytes)]) rest

/-- `setup_test_storage`: build the in-memory storage snapshot from an
initially empty storage. -/
def setup_test_storage (ser : CompiledModule → Except (List Char) (List Nat))
    (modules : List CompiledModule) :
    Except (List Char) (List (Nat × List Nat)) :=
  setupLoop ser [] modules

/-- `SharedTestingConfig`: the execution bound and the storage snapshot
(the unit cost table, which has no further structure here, is omitted). -/
structure SharedTestingConfig where
  execution_bound : Nat
  starting_storage_state : List (Nat × List Nat)
deriving DecidableEq

/-- The `TestRunner` owning the shared configuration and the plan. -/
structure TestRunner where
  num_threads : Nat
  testing_config : SharedTestingConfig
  tests : TestPlan
deriving DecidableEq

/-- `TestRunner::new(execution_bound, num_threads, tests)`: builds the
storage snapshot from the plan's modules; the snapshot error is propagated
(`?`) and no runner is produced. -/
def TestRunner.new (ser : CompiledModule → Except (List Char) (List Nat))
    (execution_bound num_threads : Nat) (tests : TestPlan) :
    Except (List Char) TestRunner :=
  match setup_test_storage ser tests.module_info with
  | .error e => .error e
  | .ok starting_storage_state =>
      .ok ⟨num_threads, ⟨execution_bound, starting_storage_state⟩, tests⟩

/-- `TestResults::new(final_statistics, tests)`. -/
structure TestResults where
  final_statistics : TestStatistics
  tests : TestPlan
deriving DecidableEq

/-- How one call of `TestRunner::run` ends. `run` has return type
`Result<TestResults>`, so an `Err` return (`error`) is possible in the
type; `panicked` records a Rust panic, which aborts the process instead of
returning. -/
inductive RunOutcome where
  | ok (results : TestResults)
  | error (e : List Char)
  | panicked
deriving DecidableEq

/-- `TestRunner::run(writer)`: builds the rayon worker pool — on pool
construction failure the source calls `.unwrap()` on the `build()` result,
which panics — then maps `exec_module_tests` over the module plans and
reduces with `combine` from the identity `TestStatistics.new`. Pool
construction is external; its result is the parameter `pool`. The parallel
reduction is modelled as the sequential left fold, which by commutativity
and associativity of `combine` computes the same statistics. -/
def TestRunner.run (pool : Except (List Char) Unit)
    (vm : List Char → VMResult) (r : TestRunner) : RunOutcome :=
  match pool with
  | .error _ => .panicked
  | .ok _ =>
      .ok ⟨r.tests.module_tests.foldl
          (fun acc test_plan => acc.combine (exec_module_tests vm test_plan))
          TestStatistics.new,
        r.tests⟩

/-- `Counter::next` (shared/mod.rs lines 259-265): `fetch_add(1, AcqRel)` on
a static `AtomicUsize` initialized to 0, cast to `u64`. Sequential
state-passing model: the state is the current value of the atomic; a call
returns the old value and stores the incremented value, which on a 64-bit
`usize` wraps modulo 2^64 (Rust's `fetch_add` wraps around on overflow). -/
def Counter.next (state : Nat) : Nat × Nat :=
  (state, (state + 1) % 2 ^ 64)

/-- The counter state after `n` calls, from the initial value 0. -/
def Counter.stateAfter : Nat → Nat
  | 0 => 0
  | n + 1 => (Counter.next (Counter.stateAfter n)).2

/-- The value returned by call number `n` (0-based) of `Counter::next`. -/
def Counter.valueAt (n : Nat) : Nat :=
  (Counter.next (Counter.stateAfter n)).1

/-- The failure record that one loop step of `exec_module_tests` adds for a
test, if any: `none` when the test is classified as a pass. -/
def failureEntry (vm : List Char → VMResult) (module_name : List Char)
    (t : List Char × TestInfo) : Option (List Char × TestFailure) :=
  match classify t.2.expected_failure (vm t.1) with
  | .pass => none
  | .fail reason vm_error => some (module_name, ⟨reason, t.1, vm_error⟩)

/- ------------------------------------------------------------------ -/
/- Claims about the classification (C1, C2, C4, C5)                    -/
/- ------------------------------------------------------------------ -/

/-- C1: for every declared expectation and every VM error whose major status
is `OUT_OF_GAS`, classification yields the timeout failure (a `TestFailure`
with reason `timeout` carrying the VM error), even when an
`ExpectedFailure` with a matching abort code is declared: the out-of-gas
guard is the first match arm and preempts all expectation matching. -/
theorem out_of_gas_always_timeout (expected : Option ExpectedFailure)
    (err : VMError) (h : err.major_status = StatusCode.OUT_OF_GAS) :
    classify expected (.err err) = .fail .timeout (some err) := by
  simp [classify, h]

/-- Witness for `out_of_gas_always_timeout` at a declared
`ExpectedWithCode 7` matching the carried abort code 7. -/
theorem out_of_gas_always_timeout_witness :
    classify (some (.ExpectedWithCode 7))
        (.err ⟨StatusCode.OUT_OF_GAS, some 7⟩)
      = .fail .timeout (some ⟨StatusCode.OUT_OF_GAS, some 7⟩) :=
  out_of_gas_always_timeout (some (.ExpectedWithCode 7))
    ⟨StatusCode.OUT_OF_GAS, some 7⟩ rfl

/-- C2 counterexample: the claim asserts that, for a test expected to fail
with code `C`, the wrong-abort-code verdict arises exactly when the carried
code differs from `C`, and that any carried code `D ≠ C` yields the
wrong-abort verdict. Both parts fail on the code: with declared code 7,
carried code 7 but a major status that is neither `ABORTED` nor
`OUT_OF_GAS`, the verdict is `wrong_abort 7 7` (equal codes); and with
carried code 9 ≠ 7 under major status `OUT_OF_GAS` the verdict is the
timeout failure, not wrong-abort. -/
theorem wrong_abort_claim_counterexample :
    classify (some (.ExpectedWithCode 7)) (.err ⟨StatusCode.other 0, some 7⟩)
        = .fail (.wrong_abort 7 7) (some ⟨StatusCode.other 0, some 7⟩) ∧
      classify (some (.ExpectedWithCode 7))
          (.err ⟨StatusCode.OUT_OF_GAS, some 9⟩)
        = .fail .timeout (some ⟨StatusCode.OUT_OF_GAS, some 9⟩) := by
  exact ⟨rfl, rfl⟩

/-- C2 (amended): for a test declared `ExpectedWithCode C` whose execution
returns a VM error carrying abort code `code`, with major status not
`OUT_OF_GAS`: the verdict is Pass exactly when the carried code equals `C`
and the major status is `ABORTED`, and the verdict is the wrong-abort
failure recording both `C` and the carried code exactly when the carried
code differs from `C` or the major status is not `ABORTED`. -/
theorem wrong_abort_iff (C code : Nat) (err : VMError)
    (hsub : err.sub_status = some code)
    (hgas : err.major_status ≠ StatusCode.OUT_OF_GAS) :
    (classify (some (.ExpectedWithCode C)) (.err err) = .pass ↔
        code = C ∧ err.major_status = StatusCode.ABORTED) ∧
      (classify (some (.ExpectedWithCode C)) (.err err)
          = .fail (.wrong_abort C code) (some err) ↔
        code ≠ C ∨ err.major_status ≠ StatusCode.ABORTED) := by
  by_cases habort : err.major_status = StatusCode.ABORTED <;>
    by_cases hcode : C = code <;>
      (simp [classify, hsub, hgas, habort, hcode]; try omega)

/-- Witness for `wrong_abort_iff`: declared code 7, carried code 7, major
status `ABORTED` — the verdict is Pass. -/
theorem wrong_abort_iff_witness :
    (classify (some (.ExpectedWithCode 7))
        (.err ⟨StatusCode.ABORTED, some 7⟩) = .pass ↔
      7 = 7 ∧ StatusCode.ABORTED = StatusCode.ABORTED) ∧
    (classify (some (.ExpectedWithCode 7))
        (.err ⟨StatusCode.ABORTED, some 7⟩)
        = .fail (.wrong_abort 7 7) (some ⟨StatusCode.ABORTED, some 7⟩) ↔
      7 ≠ 7 ∨ StatusCode.ABORTED ≠ StatusCode.ABORTED) :=
  wrong_abort_iff 7 7 ⟨StatusCode.ABORTED, some 7⟩ rfl (by decide)

/-- C4: when execution completes without a VM error, a test with no declared
expected failure passes, and a test with any declared expected failure is
classified as the `no_abort` failure whose recorded `TestFailure` carries no
VM error context (`None`). -/
theorem ok_result_classification :
    classify none .ok = .pass ∧
      ∀ ef : ExpectedFailure, classify (some ef) .ok = .fail .no_abort none := by
  exact ⟨rfl, fun ef => rfl⟩

/-- C5: for every declared expectation, a VM error that carries no abort
code and whose major status is not `OUT_OF_GAS` is classified as the
`unknown` failure, and one loop step of `exec_module_tests` on such a test
records exactly that failure in the statistics (the step is total: the run
continues). -/
theorem no_abort_code_unknown (expected : Option ExpectedFailure)
    (err : VMError) (hsub : err.sub_status = none)
    (hgas : err.major_status ≠ StatusCode.OUT_OF_GAS) :
    classify expected (.err err) = .fail .unknown (some err) ∧
      ∀ (vm : List Char → VMResult) (module_name fname : List Char)
        (stats : TestStatistics),
        vm fname = .err err →
        execStep vm module_name stats (fname, ⟨expected⟩)
          = stats.test_failure module_name ⟨.unknown, fname, some err⟩ := by
  have hclass : classify expected (.err err) = .fail .unknown (some err) := by
    match expected with
    | none => simp [classify, hsub, hgas]
    | some .Expected => simp [classify, hsub, hgas]
    | some (.ExpectedWithCode code) => simp [classify, hsub, hgas]
  refine ⟨hclass, ?_⟩
  intro vm module_name fname stats hvm
  simp [execStep, hvm, hclass]

/- ------------------------------------------------------------------ -/
/- Claims about filtering (C6, C7) and combining statistics (C8)       -/
/- ------------------------------------------------------------------ -/

/-- C6: after `filter(substring)` no module entry is removed (the mapped
list has the same length), and each module of the plan reappears with the
same name, kept whole when its own name contains the substring, and with
exactly the subset of its tests whose function names contain the substring
otherwise. -/
theorem filter_policy (p : TestPlan) (slice : List Char) (m : ModuleTestPlan)
    (hm : m ∈ p.module_tests) :
    (filterPlan slice p).module_tests.length = p.module_tests.length ∧
      ∃ m' ∈ (filterPlan slice p).module_tests,
        m'.module_name = m.module_name ∧
          (containsSub slice m.module_name = true → m' = m) ∧
          (containsSub slice m.module_name = false →
            ∀ t, t ∈ m'.tests ↔ t ∈ m.tests ∧ containsSub slice t.1 = true) := by
  refine ⟨by simp [filterPlan], ModuleTestPlan.filterModule slice m,
    List.mem_map_of_mem _ hm, ?_, ?_, ?_⟩
  · by_cases h : containsSub slice m.module_name = true <;>
      simp [ModuleTestPlan.filterModule, h]
  · intro h
    simp [ModuleTestPlan.filterModule, h]
  · intro h t
    simp [ModuleTestPlan.filterModule, h, List.mem_filter]

/-- Witness for `filter_policy` on the plan with modules `coin` (tests
`mint`, `burn`) and `util` (test `mint_helper`), filtering by `mint`,
instantiated at the `coin` module. -/
theorem filter_policy_witness :
    (filterPlan ['m','i','n','t']
        ⟨[], [⟨['c','o','i','n'], [(['m','i','n','t'], ⟨none⟩),
                                   (['b','u','r','n'], ⟨none⟩)]⟩,
              ⟨['u','t','i','l'],
                [(['m','i','n','t','_','h','e','l','p','e','r'], ⟨none⟩)]⟩]⟩
      ).module_tests.length = 2 ∧
      ∃ m' ∈ (filterPlan ['m','i','n','t']
          ⟨[], [⟨['c','o','i','n'], [(['m','i','n','t'], ⟨none⟩),
                                     (['b','u','r','n'], ⟨none⟩)]⟩,
                ⟨['u','t','i','l'],
                  [(['m','i','n','t','_','h','e','l','p','e','r'], ⟨none⟩)]⟩]⟩
        ).module_tests,
        m'.module_name = ['c','o','i','n'] ∧
          (containsSub ['m','i','n','t'] ['c','o','i','n'] = true →
            m' = ⟨['c','o','i','n'], [(['m','i','n','t'], ⟨none⟩),
                                      (['b','u','r','n'], ⟨none⟩)]⟩) ∧
          (containsSub ['m','i','n','t'] ['c','o','i','n'] = false →
            ∀ t, t ∈ m'.tests ↔
              t ∈ [(['m','i','n','t'], (⟨none⟩ : TestInfo)),
                   (['b','u','r','n'], ⟨none⟩)] ∧
                containsSub ['m','i','n','t'] t.1 = true) :=
  filter_policy
    ⟨[], [⟨['c','o','i','n'], [(['m','i','n','t'], ⟨none⟩),
                               (['b','u','r','n'], ⟨none⟩)]⟩,
          ⟨['u','t','i','l'],
            [(['m','i','n','t','_','h','e','l','p','e','r'], ⟨none⟩)]⟩]⟩
    ['m','i','n','t']
    ⟨['c','o','i','n'], [(['m','i','n','t'], ⟨none⟩),
                         (['b','u','r','n'], ⟨none⟩)]⟩
    (by simp)

/-- Filtering one module entry is idempotent: a kept module is kept again,
and a narrowed test list is unchanged by narrowing with the same slice. -/
theorem filterModule_idem (slice : List Char) (m : ModuleTestPlan) :
    ModuleTestPlan.filterModule slice (ModuleTestPlan.filterModule slice m)
      = ModuleTestPlan.filterModule slice m := by
  by_cases h : containsSub slice m.module_name = true
  · simp [ModuleTestPlan.filterModule, h]
  · simp [ModuleTestPlan.filterModule, h, List.filter_filter]

/-- C7: `filter` is idempotent for a fixed substring — applying it twice to
a test plan yields the same plan as applying it once. -/
theorem filter_idempotent (p : TestPlan) (slice : List Char) :
    filterPlan slice (filterPlan slice p) = filterPlan slice p := by
  simp only [filterPlan, List.map_map]
  exact congrArg _ (List.map_congr_left fun m _ => filterModule_idem slice m)

/-- C8: `combine` is commutative and associative, and the freshly
constructed accumulator `TestStatistics.new` (zero passes, no failures) is
a two-sided identity — so reducing worker statistics in any order or
grouping yields the same final statistics. -/
theorem combine_comm_assoc_id (a b c : TestStatistics) :
    a.combine b = b.combine a ∧
      (a.combine b).combine c = a.combine (b.combine c) ∧
      TestStatistics.new.combine a = a ∧
      a.combine TestStatistics.new = a := by
  obtain ⟨pa, fa⟩ := a
  obtain ⟨pb, fb⟩ := b
  obtain ⟨pc, fc⟩ := c
  refine ⟨?_, ?_, ?_, ?_⟩ <;>
    simp only [TestStatistics.combine, TestStatistics.new,
      TestStatistics.mk.injEq]
  · exact ⟨Nat.add_comm pa pb, add_comm fa fb⟩
  · exact ⟨Nat.add_assoc pa pb pc, add_assoc fa fb fc⟩
  · exact ⟨Nat.zero_add pa, zero_add fa⟩
  · exact ⟨rfl, add_zero fa⟩

/-- Witness for `no_abort_code_unknown`: a linker-style fault
(`other 4016`, no sub-status) under a declared `Expected`. -/
theorem no_abort_code_unknown_witness :
    classify (some .Expected) (.err ⟨StatusCode.other 4016, none⟩)
        = .fail .unknown (some ⟨StatusCode.other 4016, none⟩) ∧
      ∀ (vm : List Char → VMResult) (module_name fname : List Char)
        (stats : TestStatistics),
        vm fname = .err ⟨StatusCode.other 4016, none⟩ →
        execStep vm module_name stats (fname, ⟨some .Expected⟩)
          = stats.test_failure module_name
              ⟨.unknown, fname, some ⟨StatusCode.other 4016, none⟩⟩ :=
  no_abort_code_unknown (some .Expected) ⟨StatusCode.other 4016, none⟩ rfl
    (by decide)

/- ------------------------------------------------------------------ -/
/- Claim about per-module accounting (C3)                              -/
/- ------------------------------------------------------------------ -/

/-- Executing a list of tests adds exactly one unit per test to the
statistics: the final pass count plus failure count grows by the list
length. -/
theorem foldl_execStep_total (vm : List Char → VMResult)
    (module_name : List Char) (l : List (List Char × TestInfo))
    (s : TestStatistics) :
    (l.foldl (execStep vm module_name) s).passed
        + Multiset.card (l.foldl (execStep vm module_name) s).failures
      = s.passed + Multiset.card s.failures + l.length := by
  induction l generalizing s with
  | nil => simp
  | cons t l ih =>
    rw [List.foldl_cons, ih]
    cases hc : classify t.2.expected_failure (vm t.1) <;>
      (simp [execStep, hc, TestStatistics.test_success,
        TestStatistics.test_failure]; omega)

/-- The pass count after executing a list of tests counts exactly the tests
classified as a pass. -/
theorem foldl_execStep_passed (vm : List Char → VMResult)
    (module_name : List Char) (l : List (List Char × TestInfo))
    (s : TestStatistics) :
    (l.foldl (execStep vm module_name) s).passed
      = s.passed + l.countP
          (fun t => decide (classify t.2.expected_failure (vm t.1)
            = Verdict.pass)) := by
  induction l generalizing s with
  | nil => simp
  | cons t l ih =>
    rw [List.foldl_cons, ih, List.countP_cons]
    cases hc : classify t.2.expected_failure (vm t.1) <;>
      (simp [execStep, hc, TestStatistics.test_success,
        TestStatistics.test_failure]; try omega)

/-- The failures after executing a list of tests are exactly the per-test
failure entries of the non-passing tests. -/
theorem foldl_execStep_failures (vm : List Char → VMResult)
    (module_name : List Char) (l : List (List Char × TestInfo))
    (s : TestStatistics) :
    (l.foldl (execStep vm module_name) s).failures
      = s.failures
          + (l.filterMap (failureEntry vm module_name) :
              Multiset (List Char × TestFailure)) := by
  induction l generalizing s with
  | nil => simp
  | cons t l ih =>
    rw [List.foldl_cons, ih]
    cases hc : classify t.2.expected_failure (vm t.1) with
    | pass => simp [execStep, hc, failureEntry, TestStatistics.test_success]
    | fail reason vm_error =>
      simp [execStep, hc, failureEntry, TestStatistics.test_failure,
        ← Multiset.cons_coe, Multiset.cons_add, Multiset.add_cons]

/-- A failure entry always bears the name of the test it came from. -/
theorem failureEntry_name_mem (vm : List Char → VMResult)
    (module_name : List Char) (l : List (List Char × TestInfo))
    (x : List Char × TestFailure)
    (hx : x ∈ l.filterMap (failureEntry vm module_name)) :
    x.2.function_name ∈ l.map Prod.fst := by
  rw [List.mem_filterMap] at hx
  obtain ⟨t, ht, he⟩ := hx
  cases hc : classify t.2.expected_failure (vm t.1) with
  | pass => simp [failureEntry, hc] at he
  | fail reason vm_error =>
    simp only [failureEntry, hc] at he
    rw [Option.some_inj] at he
    subst he
    exact List.mem_map_of_mem _ ht

/-- A name absent from a test list never appears in its failure entries. -/
theorem countP_failureEntry_notin (vm : List Char → VMResult)
    (module_name fname : List Char) (l : List (List Char × TestInfo))
    (h : fname ∉ l.map Prod.fst) :
    (l.filterMap (failureEntry vm module_name)).countP
        (fun x => decide (x.2.function_name = fname)) = 0 := by
  rw [List.countP_eq_zero]
  intro x hx
  simp only [decide_eq_true_eq]
  intro hf
  exact h (hf ▸ failureEntry_name_mem vm module_name l x hx)

/-- With pairwise-distinct test names, a test from the list contributes
exactly one failure entry when it does not pass, and none when it does. -/
theorem countP_failureEntry_of_nodup (vm : List Char → VMResult)
    (module_name fname : List Char) (info : TestInfo)
    (l : List (List Char × TestInfo)) (hnd : (l.map Prod.fst).Nodup)
    (hmem : (fname, info) ∈ l) :
    (l.filterMap (failureEntry vm module_name)).countP
        (fun x => decide (x.2.function_name = fname))
      = if classify info.expected_failure (vm fname) = Verdict.pass
        then 0 else 1 := by
  induction l with
  | nil => simp at hmem
  | cons t l ih =>
    rw [List.map_cons, List.nodup_cons] at hnd
    obtain ⟨hnotin, hnd'⟩ := hnd
    rcases List.mem_cons.mp hmem with heq | hmem'
    · subst heq
      have h0 := countP_failureEntry_notin vm module_name fname l hnotin
      cases hc : classify info.expected_failure (vm fname) with
      | pass => simp [failureEntry, hc, h0]
      | fail reason vm_error => simp [failureEntry, hc, List.countP_cons, h0]
    · have hne : t.1 ≠ fname := fun hf =>
        hnotin (hf ▸ List.mem_map_of_mem Prod.fst hmem')
      cases hc : classify t.2.expected_failure (vm t.1) with
      | pass => simpa [failureEntry, hc] using ih hnd' hmem'
      | fail reason vm_error =>
        have hsome : failureEntry vm module_name t
            = some (module_name, ⟨reason, t.1, vm_error⟩) := by
          simp [failureEntry, hc]
        rw [List.filterMap_cons_some hsome, List.countP_cons_of_neg]
        · exact ih hnd' hmem'
        · simp [hne]

/-- C3: with the module's test-function names pairwise distinct (they are
keys of a `BTreeMap`), every executed test of a module plan is accounted
for exactly once: the pass count plus the number of failure records equals
the number of tests, the pass count is exactly the number of tests
classified as a pass, and each test function contributes exactly one
failure record when it does not pass and none when it does — no executed
test is dropped or double-counted. -/
theorem exec_module_tests_accounting (vm : List Char → VMResult)
    (plan : ModuleTestPlan) (hnd : (plan.tests.map Prod.fst).Nodup) :
    (exec_module_tests vm plan).passed
        + Multiset.card (exec_module_tests vm plan).failures
      = plan.tests.length ∧
      (exec_module_tests vm plan).passed
        = plan.tests.countP
            (fun t => decide (classify t.2.expected_failure (vm t.1)
              = Verdict.pass)) ∧
      ∀ fname info, (fname, info) ∈ plan.tests →
        Multiset.countP (fun x => x.2.function_name = fname)
            (exec_module_tests vm plan).failures
          = if classify info.expected_failure (vm fname) = Verdict.pass
            then 0 else 1 := by
  refine ⟨?_, ?_, ?_⟩
  · simp only [exec_module_tests]
    rw [foldl_execStep_total]
    simp [TestStatistics.new]
  · simp only [exec_module_tests]
    rw [foldl_execStep_passed]
    simp [TestStatistics.new]
  · intro fname info hmem
    simp only [exec_module_tests]
    rw [foldl_execStep_failures,
      show TestStatistics.new.failures = 0 from rfl, zero_add,
      Multiset.coe_countP]
    exact countP_failureEntry_of_nodup vm plan.module_name fname info
      plan.tests hnd hmem

/-- Witness for `exec_module_tests_accounting`: a two-test module where the
first test passes and the second was expected to abort but completed. -/
theorem exec_module_tests_accounting_witness :
    (exec_module_tests (fun _ => VMResult.ok)
          ⟨['m'], [(['g'], ⟨none⟩), (['b'], ⟨some .Expected⟩)]⟩).passed
        + Multiset.card (exec_module_tests (fun _ => VMResult.ok)
            ⟨['m'], [(['g'], ⟨none⟩), (['b'], ⟨some .Expected⟩)]⟩).failures
      = [(['g'], (⟨none⟩ : TestInfo)),
         (['b'], ⟨some ExpectedFailure.Expected⟩)].length ∧
      Multiset.countP (fun x => x.2.function_name = ['b'])
          (exec_module_tests (fun _ => VMResult.ok)
            ⟨['m'], [(['g'], ⟨none⟩), (['b'], ⟨some .Expected⟩)]⟩).failures
        = if classify (some ExpectedFailure.Expected)
              ((fun _ => VMResult.ok) ['b']) = Verdict.pass
          then 0 else 1 := by
  have h := exec_module_tests_accounting (fun _ => VMResult.ok)
    ⟨['m'], [(['g'], ⟨none⟩), (['b'], ⟨some .Expected⟩)]⟩ (by decide)
  exact ⟨h.1, h.2.2 ['b'] ⟨some .Expected⟩ (by decide)⟩

/- ------------------------------------------------------------------ -/
/- Claims about setup errors (C9) and the counter (C10)                -/
/- ------------------------------------------------------------------ -/

/-- The storage-snapshot loop succeeds exactly when every module
serializes, whatever storage it starts from. -/
theorem setupLoop_ok_iff (ser : CompiledModule → Except (List Char) (List Nat))
    (modules : List CompiledModule) :
    ∀ storage, (∃ s, setupLoop ser storage modules = .ok s) ↔
      ∀ m ∈ modules, ∃ bs, ser m = .ok bs := by
  induction modules with
  | nil => intro storage; simp [setupLoop]
  | cons m rest ih =>
    intro storage
    cases hm : ser m with
    | error e => simp [setupLoop, hm, List.forall_mem_cons]
    | ok module_bytes => simp [setupLoop, hm, ih, List.forall_mem_cons]

/-- C9 counterexample: on a concrete runner, a worker-pool construction
failure makes `run` end in a panic (the `.unwrap()` of `build()` in
test_runner.rs line 86 aborts the process), not in an error value returned
to the caller — refuting the part of the claim that the failure is
"propagated to the caller as a hard error rather than a per-test failure
or a crash". -/
theorem run_pool_failure_panics :
    TestRunner.run (Except.error ['p','o','o','l']) (fun _ => VMResult.ok)
        ⟨1, ⟨10, []⟩, ⟨[], []⟩⟩ = RunOutcome.panicked := rfl

/-- C9 (amended): `TestRunner::new` produces a runner exactly when every
module of the plan serializes (the first serialization failure aborts
construction before any test executes, producing no runner and no
statistics), and `run` never returns an error value: on worker-pool
construction failure it panics (a crash, not a propagated error), and
otherwise it returns the full statistics. -/
theorem setup_errors_are_fatal
    (ser : CompiledModule → Except (List Char) (List Nat))
    (execution_bound num_threads : Nat) (tests : TestPlan) :
    ((∃ r, TestRunner.new ser execution_bound num_threads tests = .ok r) ↔
        ∀ m ∈ tests.module_info, ∃ bs, ser m = .ok bs) ∧
      ∀ (pool : Except (List Char) Unit) (vm : List Char → VMResult)
        (r : TestRunner),
        (∀ e, TestRunner.run pool vm r ≠ RunOutcome.error e) ∧
          (TestRunner.run pool vm r = RunOutcome.panicked ↔
            ∃ e, pool = Except.error e) := by
  constructor
  · rw [← setupLoop_ok_iff ser tests.module_info []]
    unfold TestRunner.new setup_test_storage
    cases h : setupLoop ser [] tests.module_info <;> simp [h]
  · intro pool vm r
    cases pool <;> simp [TestRunner.run]

/-- The counter state after `n` calls is `n` modulo 2^64. -/
theorem Counter.stateAfter_eq (n : Nat) :
    Counter.stateAfter n = n % 2 ^ 64 := by
  induction n with
  | zero => rfl
  | succ n ih => simp [Counter.stateAfter, Counter.next, ih, Nat.mod_add_mod]

/-- Call number `n` of the counter returns `n` modulo 2^64. -/
theorem Counter.valueAt_eq (n : Nat) : Counter.valueAt n = n % 2 ^ 64 := by
  simp [Counter.valueAt, Counter.next, Counter.stateAfter_eq n]

/-- C10 counterexample: call number 2^64 - 1 returns 2^64 - 1, and the very
next call returns 0 — on overflow the 64-bit `fetch_add` silently wraps the
counter to 0 instead of treating it as a fatal invariant violation, and the
returned values are not strictly increasing across successive calls. -/
theorem counter_wraparound :
    Counter.valueAt (2 ^ 64 - 1) = 2 ^ 64 - 1 ∧
      Counter.valueAt (2 ^ 64) = 0 ∧
      Counter.valueAt (2 ^ 64) < Counter.valueAt (2 ^ 64 - 1) := by
  have h64 : (2 : Nat) ^ 64 = 18446744073709551616 := by norm_num
  have h1 := Counter.valueAt_eq (2 ^ 64 - 1)
  have h2 := Counter.valueAt_eq (2 ^ 64)
  rw [h64] at h1 h2 ⊢
  omega

/-- C10 (amended): `Counter::next` starts at initial value 0 and call
number `n` returns `n` modulo 2^64; the returned values are strictly
increasing across successive calls only while the call count stays below
2^64, after which the counter silently wraps to 0. -/
theorem counter_next_sequence (n : Nat) (h : n + 1 < 2 ^ 64) :
    Counter.valueAt n = n ∧ Counter.valueAt n < Counter.valueAt (n + 1) := by
  have h64 : (2 : Nat) ^ 64 = 18446744073709551616 := by norm_num
  have h1 := Counter.valueAt_eq n
  have h2 := Counter.valueAt_eq (n + 1)
  rw [h64] at h1 h2 h
  omega

/-- Witness for `counter_next_sequence` at call number 41. -/
theorem counter_next_sequence_witness :
    Counter.valueAt 41 = 41 ∧ Counter.valueAt 41 < Counter.valueAt 42 :=
  counter_next_sequence 41 (by norm_num)
